import Mathlib

/-
Verification of the customsloglogger package (src/logger.go and the
façade variant in src/unnamed/part_001) via a shallow embedding.

Modelling conventions:
- slog.Level is an int; LevelDebug = -4, LevelInfo = 0, LevelWarn = 4,
  LevelError = 8.  We embed levels as Int.
- slog.Attr values are used only through their string rendering
  (fmt.Sprintf "%s" on the text path, Value.String() on the JSON path,
  which agree), so an attribute is a pair of strings.
- context.Context is queried with either a typed key (CtxKeyString k)
  or a plain string key k; we embed a context as an association list
  over a key type distinguishing the two.
- io.Writer sinks are identified by a numeric id; the bytes written to
  the sink during one Handle call are returned in the result record.
- The Go standard library calls json.Marshal, http.NewRequest and
  http.Client.Do are external to the repository; their outcomes are
  supplied by an environment record (RunEnv) and Handle branches on
  them exactly as the source does.
- runtime.Caller is likewise external; the environment carries its
  outcome (ok, file, line).
- The sync.Mutex field only guards the per-call routing flags; the
  sequential semantics of one call is modelled, so the mutex itself
  has no representation.
-/

namespace Customsloglogger

/-- An attribute: key plus the string rendering of its value
(src/logger.go slog.Attr usage). -/
structure Attr where
  key : String
  value : String
deriving DecidableEq, Repr

/-- A context key is either a typed key CtxKeyString(s) or a plain
string key s (src/logger.go:29 and the two ctx.Value calls at
src/logger.go:191-193). -/
inductive CtxKey where
  | typed (s : String)
  | plain (s : String)
deriving DecidableEq, Repr

/-- A Go context restricted to what the handler queries: an association
list from keys to the string rendering of the stored value. -/
abbrev GoContext := List (CtxKey × String)

/-- ctx.Value: first binding of the key, none when absent. -/
def ctxValue (ctx : GoContext) (k : CtxKey) : Option String :=
  match ctx with
  | [] => none
  | e :: rest => if e.1 = k then some e.2 else ctxValue rest k

/-- CustomHandlerOptions (src/logger.go:52-66). -/
structure CustomHandlerOptions where
  AddSource : Bool
  ColorizeLogs : Bool
  JsonLogURL : String
  MinimumLevel : Int
deriving DecidableEq, Repr

/-- CustomHandler (src/logger.go:69-103).  TextWriter is a sink id;
the mutex field is omitted (see the module comment). -/
structure CustomHandler where
  TextWriter : Nat
  GroupName : String
  AdditionnalAttrs : List Attr
  CtxAttrsKeys : List String
  Options : CustomHandlerOptions
  logText : Bool
  logJson : Bool
deriving DecidableEq, Repr

/-- A slog.Record as consumed by Handle: Time is the formatted
timestamp (the text path layout time.DateTime and the JSON path layout
are the same string "2006-01-02 15:04:05"). -/
structure SlogRecord where
  Time : String
  Level : Int
  Message : String
  Attrs : List Attr
deriving DecidableEq, Repr

/-- ASCII color constants (src/logger.go:33-40). -/
def COLOR_RESET : String := "\x1b[0m"

def COLOR_DARKGRAY : String := "\x1b[90m"

def COLOR_RED : String := "\x1b[31m"

def COLOR_BLUE : String := "\x1b[34m"

def COLOR_YELLOW : String := "\x1b[33m"

def COLOR_WHITE : String := "\x1b[97m"

/-- colorize (src/logger.go:43-49). -/
def colorize (colorCode : String) (v : String) (colorized : Bool) : String :=
  if colorized = false then v
  else colorCode ++ v ++ COLOR_RESET

/-- The helper closure str inside slog.Level.String (Go stdlib): base
when the offset is zero, else base followed by the %+d rendering. -/
def levelStr (base : String) (val : Int) : String :=
  if val = 0 then base
  else if 0 < val then base ++ "+" ++ toString val
  else base ++ toString val

/-- slog.Level.String (Go stdlib). -/
def levelString (l : Int) : String :=
  if l < 0 then levelStr "DEBUG" (l + 4)
  else if l < 4 then levelStr "INFO" l
  else if l < 8 then levelStr "WARN" (l - 4)
  else levelStr "ERROR" (l - 8)

/-- The color switch at the top of Handle (src/logger.go:151-162). -/
def levelColor (l : Int) : String :=
  if l = -4 then COLOR_DARKGRAY
  else if l = 0 then COLOR_BLUE
  else if l = 4 then COLOR_YELLOW
  else if l = 8 then COLOR_RED
  else COLOR_WHITE

/-- A JSON value as stored in the payload map: a string, or the nested
group object map[string]string. -/
inductive JVal where
  | str (s : String)
  | obj (entries : List (String × String))
deriving DecidableEq, Repr

/-- The payload map[string]interface\x7b\x7d, as an association list
with Go map update semantics (insert overwrites an existing key). -/
abbrev JMap := List (String × JVal)

/-- Go map store m[k] = v for the payload map: replace the binding of
k when present, else add it. -/
def jinsert : JMap → String → JVal → JMap
  | [], k, v => [(k, v)]
  | e :: rest, k, v => if e.1 = k then (k, v) :: rest else e :: jinsert rest k v

/-- Go map read for the payload map. -/
def jlookup : JMap → String → Option JVal
  | [], _ => none
  | e :: rest, k => if e.1 = k then some e.2 else jlookup rest k

/-- Go map store for the nested map[string]string group map. -/
def sinsert : List (String × String) → String → String → List (String × String)
  | [], k, v => [(k, v)]
  | e :: rest, k, v => if e.1 = k then (k, v) :: rest else e :: sinsert rest k v

/-- Enabled (src/logger.go:109-111): level >= MinimumLevel. -/
def CustomHandler.Enabled (m : CustomHandler) (ctx : GoContext) (level : Int) : Bool :=
  decide (m.Options.MinimumLevel ≤ level)

/-- The group prefix set up at src/logger.go:165-168. -/
def groupPref (m : CustomHandler) : String :=
  if m.GroupName ≠ "" then m.GroupName ++ "." else ""

/-- One text attribute line, fmt.Sprintf "\t- %s%s : %s"
(src/logger.go:178,184,199). -/
def renderAttrLine (gp : String) (a : Attr) : String :=
  "\t- " ++ gp ++ a.key ++ " : " ++ a.value

/-- The typed-then-plain context lookup at src/logger.go:191-196. -/
def resolveCtxKey (ctx : GoContext) (k : String) : Option String :=
  match ctxValue ctx (CtxKey.typed k) with
  | some v => some v
  | none => ctxValue ctx (CtxKey.plain k)

/-- The three attribute-collection loops of Handle
(src/logger.go:171-201), producing the textAttrs lines and the
jsonAttrs sequence by successive appends, as the source does. -/
def CustomHandler.mergeAttrs (m : CustomHandler) (ctx : GoContext) (r : SlogRecord) :
    List String × List Attr :=
  let gp := groupPref m
  let st : List String × List Attr := ([], [])
  let st := m.AdditionnalAttrs.foldl
    (fun st attr => (st.1 ++ [renderAttrLine gp attr], st.2 ++ [attr])) st
  let st := r.Attrs.foldl
    (fun st a => (st.1 ++ [renderAttrLine gp a], st.2 ++ [a])) st
  let st := m.CtxAttrsKeys.foldl
    (fun st k =>
      match resolveCtxKey ctx k with
      | none => st
      | some v => (st.1 ++ [renderAttrLine gp ⟨k, v⟩], st.2 ++ [⟨k, v⟩])) st
  st

/-- The outcomes of the calls Handle makes into the Go runtime and
standard library, which are external to this repository: the
runtime.Caller(3) result, whether json.Marshal and http.NewRequest
succeed, and the client.Do outcome observed by the posting goroutine. -/
structure RunEnv where
  callerOk : Bool
  callerFile : String
  callerLine : Nat
  marshalOk : Bool
  requestOk : Bool
  transportError : Option String
deriving DecidableEq, Repr

/-- The source string computed at src/logger.go:210-213. -/
def sourceOf (m : CustomHandler) (env : RunEnv) : String :=
  if env.callerOk = true ∧ m.Options.AddSource = true then
    "@" ++ env.callerFile ++ ":" ++ toString env.callerLine
  else ""

/-- textAttrsValues (src/logger.go:204-207). -/
def textAttrsValuesOf (m : CustomHandler) (ctx : GoContext) (r : SlogRecord) : String :=
  let textAttrs := (m.mergeAttrs ctx r).1
  if textAttrs.length ≠ 0 then "\n" ++ String.intercalate "\n" textAttrs
  else ""

/-- The fmt.Fprintln block (src/logger.go:217-224): operands joined by
single spaces, trailing newline. -/
def renderedText (m : CustomHandler) (r : SlogRecord) (source : String)
    (textAttrsValues : String) : String :=
  let color := levelColor r.Level
  String.intercalate " "
    [ colorize color ("===============" ++ levelString r.Level ++ "================\n")
        m.Options.ColorizeLogs
    , colorize color r.Message m.Options.ColorizeLogs
    , colorize COLOR_DARKGRAY ("\n " ++ r.Time ++ " " ++ source) m.Options.ColorizeLogs
    , textAttrsValues
    , colorize color "\n====================================" m.Options.ColorizeLogs
    ] ++ "\n"

/-- The jsonData construction (src/logger.go:231-251): base object,
optional source, then either the grouped fold (the group map and the
jsonData entry are updated once per attribute, inside the loop) or the
flat fold. -/
def jsonDataOf (m : CustomHandler) (ctx : GoContext) (r : SlogRecord)
    (source : String) : JMap :=
  let jsonAttrs := (m.mergeAttrs ctx r).2
  let jd : JMap :=
    [("time", JVal.str r.Time), ("level", JVal.str (levelString r.Level)),
     ("msg", JVal.str r.Message)]
  let jd := if source ≠ "" then jinsert jd "source" (JVal.str source) else jd
  if m.GroupName ≠ "" then
    (jsonAttrs.foldl
      (fun (st : List (String × String) × JMap) a =>
        let gm := sinsert st.1 a.key a.value
        (gm, jinsert st.2 m.GroupName (JVal.obj gm)))
      (([], jd))).2
  else
    jsonAttrs.foldl (fun jd a => jinsert jd a.key (JVal.str a.value)) jd

/-- The observable outcome of one Handle call: bytes written to the
text sink, the POST that was issued (URL and payload), the error
returned to the caller, and the lines printed on the local standard
output by the dispatch goroutine. -/
structure HandleResult where
  textOutput : Option String
  jsonPost : Option (String × JMap)
  err : Option String
  localPrints : List String
deriving DecidableEq, Repr

/-- Handle (src/logger.go:148-283).  Text rendering happens first when
logText is set; dispatch runs only when JsonLogURL is non-empty and
logJson is set; a marshal failure aborts with the first error message,
a request-construction failure with the second; otherwise the POST is
issued and a transport error is only printed locally. -/
def CustomHandler.Handle (m : CustomHandler) (ctx : GoContext) (r : SlogRecord)
    (env : RunEnv) : HandleResult :=
  let source := sourceOf m env
  let textOutput :=
    if m.logText = true then
      some (renderedText m r source (textAttrsValuesOf m ctx r))
    else none
  if m.Options.JsonLogURL ≠ "" ∧ m.logJson = true then
    if env.marshalOk = true then
      if env.requestOk = true then
        { textOutput := textOutput
          jsonPost := some (m.Options.JsonLogURL, jsonDataOf m ctx r source)
          err := none
          localPrints :=
            match env.transportError with
            | some e => ["error while sending to log service : " ++ e ++ "\n"]
            | none => [] }
      else
        { textOutput := textOutput, jsonPost := none
          err := some "unable to create http request to send json log"
          localPrints := [] }
    else
      { textOutput := textOutput, jsonPost := none
        err := some "unable to parse json request", localPrints := [] }
  else
    { textOutput := textOutput, jsonPost := none, err := none, localPrints := [] }

/-- Default options built by NewCustomLogger when nil is passed
(src/logger.go:297-302). -/
def defaultHandlerOptions : CustomHandlerOptions :=
  { AddSource := true, ColorizeLogs := true, JsonLogURL := "", MinimumLevel := 0 }

/-- NewCustomLogger (src/logger.go:296-322), reduced to the handler it
wraps: fresh empty attribute and context-key lists, empty group, both
routing flags true. -/
def NewCustomLogger (textWriter : Nat) (options : Option CustomHandlerOptions) :
    CustomHandler :=
  let internalOptions :=
    match options with
    | none => defaultHandlerOptions
    | some o => o
  { TextWriter := textWriter, CtxAttrsKeys := [], AdditionnalAttrs := [],
    GroupName := "", Options := internalOptions, logText := true, logJson := true }

/-- WithAttrs (src/logger.go:118-123): fresh handler from
NewCustomLogger with the same writer and options, parent group name,
and exactly the supplied attributes. -/
def CustomHandler.WithAttrs (m : CustomHandler) (attrs : List Attr) : CustomHandler :=
  let newHandler := NewCustomLogger m.TextWriter (some m.Options)
  { newHandler with GroupName := m.GroupName, AdditionnalAttrs := attrs }

/-- WithGroup (src/logger.go:130-135): fresh handler from
NewCustomLogger with the same writer and options, the supplied group
name, and the parent attributes. -/
def CustomHandler.WithGroup (m : CustomHandler) (name : String) : CustomHandler :=
  let newHandler := NewCustomLogger m.TextWriter (some m.Options)
  { newHandler with GroupName := name, AdditionnalAttrs := m.AdditionnalAttrs }

/-- One public logging call: the façade method stores the per-call
routing flags on the handler under its mutex (src/logger.go:352-404,
src/unnamed/part_001:359-367) and forwards to slog.Logger.Log, which
invokes Handle only when Enabled returns true (Go stdlib slog front
end, documented contract of Handler.Enabled). -/
def logCall (m : CustomHandler) (ctx : GoContext) (level : Int) (msg : String)
    (lText lJson : Bool) (attrs : List Attr) (tm : String) (env : RunEnv) :
    HandleResult :=
  let m2 := { m with logText := lText, logJson := lJson }
  if m2.Enabled ctx level = true then
    m2.Handle ctx { Time := tm, Level := level, Message := msg, Attrs := attrs } env
  else
    { textOutput := none, jsonPost := none, err := none, localPrints := [] }

/-- InfoTextOnly (src/unnamed/part_001:415-417): level Info, flags
(true, false). -/
def CustomLogger.InfoTextOnly (m : CustomHandler) (ctx : GoContext) (msg : String)
    (attrs : List Attr) (tm : String) (env : RunEnv) : HandleResult :=
  logCall m ctx 0 msg true false attrs tm env

/-- InfoJsonOnly (src/unnamed/part_001:420-422): level Info, flags
(false, true). -/
def CustomLogger.InfoJsonOnly (m : CustomHandler) (ctx : GoContext) (msg : String)
    (attrs : List Attr) (tm : String) (env : RunEnv) : HandleResult :=
  logCall m ctx 0 msg false true attrs tm env

/-- A heap of handlers: CustomHandler values live behind pointers in
Go, and WithCtxAttrsKeys mutates through the pointer, so derivations
are modelled against a store of handler cells addressed by index. -/
structure Store where
  cells : List CustomHandler
deriving DecidableEq, Repr

/-- Logger.With at the handler level (WithAttrs,
src/logger.go:118-123): allocates a fresh handler cell and returns its
address. -/
def withAttrsOp (s : Store) (p : Nat) (attrs : List Attr) : Store × Nat :=
  match s.cells[p]? with
  | none => (s, p)
  | some m => ({ cells := s.cells ++ [m.WithAttrs attrs] }, s.cells.length)

/-- Logger.WithGroup at the handler level (src/logger.go:130-135):
allocates a fresh handler cell and returns its address. -/
def withGroupOp (s : Store) (p : Nat) (name : String) : Store × Nat :=
  match s.cells[p]? with
  | none => (s, p)
  | some m => ({ cells := s.cells ++ [m.WithGroup name] }, s.cells.length)

/-- WithCtxAttrsKeys (src/logger.go:335-341): newHandler := c.Handler()
is the parent handler pointer itself; the loop appends each key to the
CtxAttrsKeys field through that pointer, and the returned logger wraps
the same pointer.  So the parent cell is updated in place and the
parent address is returned. -/
def withCtxAttrsKeysOp (s : Store) (p : Nat) (keys : List String) : Store × Nat :=
  match s.cells[p]? with
  | none => (s, p)
  | some m =>
    ({ cells := s.cells.set p { m with CtxAttrsKeys := m.CtxAttrsKeys ++ keys } }, p)

/-- The context-derived attributes, spec side: one synthetic attribute
per declared key, in declared order, skipped when neither the typed key
nor the plain string key resolves. -/
def ctxResolvedAttrs (ctx : GoContext) (keys : List String) : List Attr :=
  keys.filterMap (fun k => (resolveCtxKey ctx k).map (fun v => ⟨k, v⟩))

/-- The merged attribute sequence, spec side: bound attributes in
stored order, then the call-site attributes in call order, then the
context-derived attributes. -/
def specMergedAttrs (m : CustomHandler) (ctx : GoContext) (r : SlogRecord) : List Attr :=
  m.AdditionnalAttrs ++ r.Attrs ++ ctxResolvedAttrs ctx m.CtxAttrsKeys

/-- The value of the last attribute carrying a given key, if any. -/
def lastValueOf (attrs : List Attr) (k : String) : Option String :=
  match attrs with
  | [] => none
  | a :: t =>
    match lastValueOf t k with
    | some v => some v
    | none => if a.key = k then some a.value else none

/-- The group map accumulated by the grouped branch of the payload
construction: successive Go map stores, last occurrence of a key
winning. -/
def groupMapOf (attrs : List Attr) : List (String × String) :=
  attrs.foldl (fun g a => sinsert g a.key a.value) []

/-- Go map read for the nested map[string]string group map. -/
def slookup : List (String × String) → String → Option String
  | [], _ => none
  | e :: rest, k => if e.1 = k then some e.2 else slookup rest k

/-- A handler with an Info floor, a remote URL, no group, no bound
attributes and no context keys, used as a concrete test subject. -/
def handlerA : CustomHandler :=
  { TextWriter := 0, GroupName := "", AdditionnalAttrs := [], CtxAttrsKeys := [],
    Options := { AddSource := false, ColorizeLogs := false,
                 JsonLogURL := "http://logs", MinimumLevel := 0 },
    logText := true, logJson := true }

/-- handlerA under the group name "vals". -/
def handlerG : CustomHandler := { handlerA with GroupName := "vals" }

/-- handlerG with two bound attributes a=1 and b=2. -/
def handlerG2 : CustomHandler :=
  { handlerG with AdditionnalAttrs := [⟨"a", "1"⟩, ⟨"b", "2"⟩] }

/-- handlerA with the bound attribute a=1. -/
def handlerDup : CustomHandler := { handlerA with AdditionnalAttrs := [⟨"a", "1"⟩] }

/-- An environment where source capture fails and every standard
library call succeeds. -/
def envAllOk : RunEnv :=
  { callerOk := false, callerFile := "", callerLine := 0,
    marshalOk := true, requestOk := true, transportError := none }

/-- envAllOk except that the POST fails with a transport error. -/
def envTransportFail : RunEnv :=
  { envAllOk with transportError := some "connection refused" }

/-- A concrete Info record with no call-site attributes. -/
def recInfo : SlogRecord := { Time := "t", Level := 0, Message := "m", Attrs := [] }

/-- A concrete Info record with the call-site attribute a=2. -/
def recDup : SlogRecord :=
  { Time := "t", Level := 0, Message := "m", Attrs := [⟨"a", "2"⟩] }

/-- A one-cell store holding handlerA. -/
def baseStore : Store := { cells := [handlerA] }

section HelperLemmas

theorem foldl_emit_eq (gp : String) (l : List Attr) :
    ∀ (st : List String × List Attr),
      l.foldl (fun st a => (st.1 ++ [renderAttrLine gp a], st.2 ++ [a])) st
        = (st.1 ++ l.map (renderAttrLine gp), st.2 ++ l) := by
  induction l with
  | nil => intro st; simp
  | cons a t ih =>
    intro st
    simp only [List.foldl_cons, List.map_cons, ih]
    simp

theorem foldl_ctx_eq (gp : String) (ctx : GoContext) (keys : List String) :
    ∀ (st : List String × List Attr),
      keys.foldl
        (fun st k =>
          match resolveCtxKey ctx k with
          | none => st
          | some v => (st.1 ++ [renderAttrLine gp ⟨k, v⟩], st.2 ++ [⟨k, v⟩])) st
        = (st.1 ++ (ctxResolvedAttrs ctx keys).map (renderAttrLine gp),
           st.2 ++ ctxResolvedAttrs ctx keys) := by
  induction keys with
  | nil => intro st; simp [ctxResolvedAttrs]
  | cons k t ih =>
    intro st
    cases h : resolveCtxKey ctx k with
    | none =>
      simp only [List.foldl_cons, h, ctxResolvedAttrs, List.filterMap_cons]
      simpa [ctxResolvedAttrs, h] using ih st
    | some v =>
      simp only [List.foldl_cons, h, ctxResolvedAttrs, List.filterMap_cons]
      simp only [ih, ctxResolvedAttrs]
      simp [h]

/-- mergeAttrs computes exactly the spec-side merged sequence, and one
rendered line per merged attribute. -/
theorem mergeAttrs_eq_spec (m : CustomHandler) (ctx : GoContext) (r : SlogRecord) :
    m.mergeAttrs ctx r
      = ((specMergedAttrs m ctx r).map (renderAttrLine (groupPref m)),
         specMergedAttrs m ctx r) := by
  simp only [CustomHandler.mergeAttrs, specMergedAttrs]
  rw [foldl_emit_eq, foldl_emit_eq, foldl_ctx_eq]
  simp

theorem jlookup_jinsert (jd : JMap) (k k2 : String) (v : JVal) :
    jlookup (jinsert jd k v) k2 = if k2 = k then some v else jlookup jd k2 := by
  induction jd with
  | nil =>
    by_cases h : k2 = k
    · simp [jinsert, jlookup, h]
    · simp [jinsert, jlookup, h, Ne.symm h]
  | cons e rest ih =>
    by_cases he : e.1 = k
    · by_cases h2 : k2 = k
      · simp [jinsert, jlookup, he, h2]
      · simp [jinsert, jlookup, he, h2, Ne.symm h2]
    · by_cases h2 : e.1 = k2
      · have hk2 : ¬ k2 = k := fun hc => he (h2.trans hc)
        simp [jinsert, jlookup, he, h2, hk2]
      · simp [jinsert, jlookup, he, h2, ih]

theorem jinsert_jinsert_same (jd : JMap) (k : String) (v v2 : JVal) :
    jinsert (jinsert jd k v) k v2 = jinsert jd k v2 := by
  induction jd with
  | nil => simp [jinsert]
  | cons e rest ih =>
    by_cases he : e.1 = k <;> simp [jinsert, he, ih]

theorem groupedFold_eq (g : String) (attrs : List Attr) :
    ∀ (gm : List (String × String)) (jd : JMap), attrs ≠ [] →
      (attrs.foldl
        (fun (st : List (String × String) × JMap) a =>
          (sinsert st.1 a.key a.value,
           jinsert st.2 g (JVal.obj (sinsert st.1 a.key a.value)))) (gm, jd)).2
        = jinsert jd g
            (JVal.obj (attrs.foldl (fun s a => sinsert s a.key a.value) gm)) := by
  induction attrs with
  | nil => intro gm jd h; exact absurd rfl h
  | cons a t ih =>
    intro gm jd _
    cases t with
    | nil => simp
    | cons b u =>
      have step := ih (sinsert gm a.key a.value)
        (jinsert jd g (JVal.obj (sinsert gm a.key a.value))) (by simp)
      simp only [List.foldl_cons] at step ⊢
      rw [step, jinsert_jinsert_same]

theorem flatFold_jlookup (k : String) (attrs : List Attr) :
    ∀ (jd : JMap),
      jlookup (attrs.foldl (fun jd a => jinsert jd a.key (JVal.str a.value)) jd) k
        = match lastValueOf attrs k with
          | some v => some (JVal.str v)
          | none => jlookup jd k := by
  induction attrs with
  | nil => intro jd; simp [lastValueOf]
  | cons a t ih =>
    intro jd
    simp only [List.foldl_cons, ih, lastValueOf]
    cases h : lastValueOf t k with
    | some v => simp
    | none =>
      by_cases hk : a.key = k
      · simp [hk, jlookup_jinsert]
      · have hk2 : ¬ k = a.key := fun hc => hk hc.symm
        simp [hk, hk2, jlookup_jinsert]

theorem slookup_sinsert (gm : List (String × String)) (k k2 v : String) :
    slookup (sinsert gm k v) k2 = if k2 = k then some v else slookup gm k2 := by
  induction gm with
  | nil =>
    by_cases h : k2 = k
    · simp [sinsert, slookup, h]
    · simp [sinsert, slookup, h, Ne.symm h]
  | cons e rest ih =>
    by_cases he : e.1 = k
    · by_cases h2 : k2 = k
      · simp [sinsert, slookup, he, h2]
      · simp [sinsert, slookup, he, h2, Ne.symm h2]
    · by_cases h2 : e.1 = k2
      · have hk2 : ¬ k2 = k := fun hc => he (h2.trans hc)
        simp [sinsert, slookup, he, h2, hk2]
      · simp [sinsert, slookup, he, h2, ih]

theorem groupMapFold_slookup (k : String) (attrs : List Attr) :
    ∀ (gm : List (String × String)),
      slookup (attrs.foldl (fun g a => sinsert g a.key a.value) gm) k
        = match lastValueOf attrs k with
          | some v => some v
          | none => slookup gm k := by
  induction attrs with
  | nil => intro gm; simp [lastValueOf]
  | cons a t ih =>
    intro gm
    simp only [List.foldl_cons, ih, lastValueOf]
    cases h : lastValueOf t k with
    | some v => simp
    | none =>
      by_cases hk : a.key = k
      · simp [hk, slookup_sinsert]
      · have hk2 : ¬ k = a.key := fun hc => hk hc.symm
        simp [hk, hk2, slookup_sinsert]

theorem lastValueOf_mem (attrs : List Attr) (a : Attr) (ha : a ∈ attrs) :
    ∃ v, lastValueOf attrs a.key = some v := by
  induction attrs with
  | nil => cases ha
  | cons b t ih =>
    cases h : lastValueOf t a.key with
    | some v => exact ⟨v, by simp [lastValueOf, h]⟩
    | none =>
      rcases List.mem_cons.mp ha with hab | hat
      · subst hab
        exact ⟨a.value, by simp [lastValueOf, h]⟩
      · rcases ih hat with ⟨v, hv⟩
        rw [h] at hv
        cases hv

theorem Handle_textOutput (m : CustomHandler) (ctx : GoContext) (r : SlogRecord)
    (env : RunEnv) :
    (m.Handle ctx r env).textOutput
      = if m.logText = true then
          some (renderedText m r (sourceOf m env) (textAttrsValuesOf m ctx r))
        else none := by
  simp only [CustomHandler.Handle]
  by_cases hd : m.Options.JsonLogURL ≠ "" ∧ m.logJson = true
  · by_cases hmo : env.marshalOk = true
    · by_cases hro : env.requestOk = true
      · simp [hd, hmo, hro]
      · simp [hd, hmo, hro]
    · simp [hd, hmo]
  · simp [hd]

theorem Handle_jsonPost (m : CustomHandler) (ctx : GoContext) (r : SlogRecord)
    (env : RunEnv) :
    (m.Handle ctx r env).jsonPost
      = if m.Options.JsonLogURL ≠ "" ∧ m.logJson = true ∧ env.marshalOk = true
            ∧ env.requestOk = true then
          some (m.Options.JsonLogURL, jsonDataOf m ctx r (sourceOf m env))
        else none := by
  simp only [CustomHandler.Handle]
  by_cases hd : m.Options.JsonLogURL ≠ "" ∧ m.logJson = true
  · by_cases hmo : env.marshalOk = true
    · by_cases hro : env.requestOk = true
      · simp [hd, hmo, hro]
      · simp [hd, hmo, hro]
    · simp [hd, hmo]
  · have : ¬ (m.Options.JsonLogURL ≠ "" ∧ m.logJson = true ∧ env.marshalOk = true
        ∧ env.requestOk = true) := by
      intro hc
      exact hd ⟨hc.1, hc.2.1⟩
    simp [hd, this]

theorem Handle_err (m : CustomHandler) (ctx : GoContext) (r : SlogRecord)
    (env : RunEnv) :
    (m.Handle ctx r env).err
      = if m.Options.JsonLogURL ≠ "" ∧ m.logJson = true then
          (if env.marshalOk = true then
            (if env.requestOk = true then none
             else some "unable to create http request to send json log")
           else some "unable to parse json request")
        else none := by
  simp only [CustomHandler.Handle]
  by_cases hd : m.Options.JsonLogURL ≠ "" ∧ m.logJson = true
  · by_cases hmo : env.marshalOk = true
    · by_cases hro : env.requestOk = true
      · simp [hd, hmo, hro]
      · simp [hd, hmo, hro]
    · simp [hd, hmo]
  · simp [hd]

theorem Handle_localPrints (m : CustomHandler) (ctx : GoContext) (r : SlogRecord)
    (env : RunEnv) :
    (m.Handle ctx r env).localPrints
      = if m.Options.JsonLogURL ≠ "" ∧ m.logJson = true ∧ env.marshalOk = true
            ∧ env.requestOk = true then
          (match env.transportError with
           | some e => ["error while sending to log service : " ++ e ++ "\n"]
           | none => [])
        else [] := by
  simp only [CustomHandler.Handle]
  by_cases hd : m.Options.JsonLogURL ≠ "" ∧ m.logJson = true
  · by_cases hmo : env.marshalOk = true
    · by_cases hro : env.requestOk = true
      · simp [hd, hmo, hro]
      · simp [hd, hmo, hro]
    · simp [hd, hmo]
  · have : ¬ (m.Options.JsonLogURL ≠ "" ∧ m.logJson = true ∧ env.marshalOk = true
        ∧ env.requestOk = true) := by
      intro hc
      exact hd ⟨hc.1, hc.2.1⟩
    simp [hd, this]

theorem listGet_append_lt {α : Type} (l l2 : List α) (i : Nat) (h : i < l.length) :
    (l ++ l2)[i]? = l[i]? := by
  induction l generalizing i with
  | nil => exact absurd h (Nat.not_lt_zero i)
  | cons a t ih =>
    cases i with
    | zero => simp
    | succ j =>
      simp only [List.cons_append, List.getElem?_cons_succ]
      exact ih j (Nat.lt_of_succ_lt_succ h)

theorem listGet_append_length {α : Type} (l : List α) (a : α) :
    (l ++ [a])[l.length]? = some a := by
  induction l with
  | nil => simp
  | cons b t ih => simp [ih]

theorem listGet_set_self {α : Type} (l : List α) (p : Nat) (x : α) (h : p < l.length) :
    (l.set p x)[p]? = some x := by
  induction l generalizing p with
  | nil => exact absurd h (Nat.not_lt_zero p)
  | cons a t ih =>
    cases p with
    | zero => simp
    | succ j =>
      simp only [List.set_cons_succ, List.getElem?_cons_succ]
      exact ih j (Nat.lt_of_succ_lt_succ h)

theorem listGet_lt_of_eq_some {α : Type} (l : List α) (p : Nat) (x : α)
    (h : l[p]? = some x) : p < l.length := by
  by_contra hc
  rw [List.getElem?_eq_none (Nat.le_of_not_lt hc)] at h
  exact Option.noConfusion h

end HelperLemmas

/-- Claim C1: Enabled returns true exactly when the level reaches the
configured MinimumLevel (and, being a pure function of the handler and
the level, has no side effects); an event whose level is below the
floor produces neither text output nor a JSON POST. -/
theorem claim1_enabled_gate (m : CustomHandler) (ctx : GoContext) (level : Int)
    (msg tm : String) (lT lJ : Bool) (attrs : List Attr) (env : RunEnv) :
    (m.Enabled ctx level = true ↔ m.Options.MinimumLevel ≤ level)
    ∧ (level < m.Options.MinimumLevel →
        (logCall m ctx level msg lT lJ attrs tm env).textOutput = none
        ∧ (logCall m ctx level msg lT lJ attrs tm env).jsonPost = none) := by
  constructor
  · simp [CustomHandler.Enabled]
  · intro h
    have hne : ({ m with logText := lT, logJson := lJ } : CustomHandler).Enabled ctx level
        = false := by
      simp only [CustomHandler.Enabled, decide_eq_false_iff_not]
      exact not_le.mpr h
    constructor <;> simp [logCall, hne]

/-- Claim C1 witness: a Debug event against the Info floor of handlerA
writes nothing and posts nothing. -/
theorem claim1_enabled_gate_witness :
    (logCall handlerA [] (-4) "m" true true [] "t" envAllOk).textOutput = none
    ∧ (logCall handlerA [] (-4) "m" true true [] "t" envAllOk).jsonPost = none :=
  (claim1_enabled_gate handlerA [] (-4) "m" "t" true true [] envAllOk).2 (by decide)

/-- Claim C2: the merged sequence is the bound attributes in stored
order, then the call-site attributes in call order, then one synthetic
attribute per declared context key in declared order, each key
resolved first as a typed key with a plain string fallback and skipped
entirely when absent; the rendered text carries one line per merged
attribute whose key is prefixed with the group name and a dot exactly
when the group name is non-empty. -/
theorem claim2_merged_attribute_order (m : CustomHandler) (ctx : GoContext)
    (r : SlogRecord) :
    (m.mergeAttrs ctx r).2
        = m.AdditionnalAttrs ++ r.Attrs
            ++ m.CtxAttrsKeys.filterMap
                (fun k => (resolveCtxKey ctx k).map (fun v => ⟨k, v⟩))
    ∧ (m.mergeAttrs ctx r).1
        = ((m.mergeAttrs ctx r).2).map
            (renderAttrLine (if m.GroupName ≠ "" then m.GroupName ++ "." else ""))
    ∧ (∀ k, resolveCtxKey ctx k
        = match ctxValue ctx (CtxKey.typed k) with
          | some v => some v
          | none => ctxValue ctx (CtxKey.plain k)) := by
  refine ⟨?_, ?_, fun k => rfl⟩
  · simp [mergeAttrs_eq_spec, specMergedAttrs, ctxResolvedAttrs]
  · simp [mergeAttrs_eq_spec, groupPref]

/-- Claim C4: WithAttrs and WithGroup both keep the writer and the
options record of the parent (hence its minimum level, colorization,
source flag and remote URL); WithAttrs installs exactly the supplied
attributes and keeps the parent group name; WithGroup installs the
supplied name and keeps the parent attributes. -/
theorem claim4_derivation_frame (m : CustomHandler) (attrs : List Attr)
    (name : String) :
    (m.WithAttrs attrs).TextWriter = m.TextWriter
    ∧ (m.WithAttrs attrs).Options = m.Options
    ∧ (m.WithAttrs attrs).AdditionnalAttrs = attrs
    ∧ (m.WithAttrs attrs).GroupName = m.GroupName
    ∧ (m.WithGroup name).TextWriter = m.TextWriter
    ∧ (m.WithGroup name).Options = m.Options
    ∧ (m.WithGroup name).GroupName = name
    ∧ (m.WithGroup name).AdditionnalAttrs = m.AdditionnalAttrs
    ∧ (m.WithAttrs attrs).Options.MinimumLevel = m.Options.MinimumLevel
    ∧ (m.WithAttrs attrs).Options.ColorizeLogs = m.Options.ColorizeLogs
    ∧ (m.WithAttrs attrs).Options.AddSource = m.Options.AddSource
    ∧ (m.WithAttrs attrs).Options.JsonLogURL = m.Options.JsonLogURL :=
  ⟨rfl, rfl, rfl, rfl, rfl, rfl, rfl, rfl, rfl, rfl, rfl, rfl⟩

/-- Claim C10: a handler derived through WithAttrs or WithGroup starts
with an empty context-key list, so context-derived attributes no
longer appear in its merged sequence. -/
theorem claim10_ctx_keys_reset (m : CustomHandler) (attrs : List Attr) (g : String)
    (ctx : GoContext) (r : SlogRecord) :
    (m.WithAttrs attrs).CtxAttrsKeys = []
    ∧ (m.WithGroup g).CtxAttrsKeys = []
    ∧ ((m.WithAttrs attrs).mergeAttrs ctx r).2 = attrs ++ r.Attrs
    ∧ ((m.WithGroup g).mergeAttrs ctx r).2 = m.AdditionnalAttrs ++ r.Attrs := by
  refine ⟨rfl, rfl, ?_, ?_⟩
  · rw [mergeAttrs_eq_spec]
    simp [specMergedAttrs, ctxResolvedAttrs, CustomHandler.WithAttrs, NewCustomLogger]
  · rw [mergeAttrs_eq_spec]
    simp [specMergedAttrs, ctxResolvedAttrs, CustomHandler.WithGroup, NewCustomLogger]

/-- Claim C3 counterexample: WithCtxAttrsKeys on the base store
returns the parent address itself and leaves that cell holding a
handler whose CtxAttrsKeys field has changed from [] to ["userid"] —
the parent handler configuration is mutated by the derivation. -/
theorem claim3_ctx_derivation_mutates_parent :
    (withCtxAttrsKeysOp baseStore 0 ["userid"]).2 = 0
    ∧ (withCtxAttrsKeysOp baseStore 0 ["userid"]).1.cells[0]?
        = some { handlerA with CtxAttrsKeys := ["userid"] }
    ∧ baseStore.cells[0]? = some handlerA
    ∧ handlerA.CtxAttrsKeys = [] := by
  refine ⟨rfl, ?_, rfl, rfl⟩
  decide

/-- Claim C3 (amended): With (WithAttrs) and WithGroup allocate a
fresh handler cell and leave every existing cell — the parent included
— unchanged, and two loggers derived independently from one base carry
only their own bound attributes; WithCtxAttrsKeys however returns the
parent address and updates the parent cell in place, appending the
keys to its CtxAttrsKeys field, so that derivation does mutate the
parent configuration. -/
theorem claim3_derivation_immutability_amended (s : Store) (p : Nat)
    (a1 a2 : List Attr) (g : String) (keys : List String) (m : CustomHandler)
    (hp : s.cells[p]? = some m) :
    (∀ i, i < s.cells.length → (withAttrsOp s p a1).1.cells[i]? = s.cells[i]?)
    ∧ (∀ i, i < s.cells.length → (withGroupOp s p g).1.cells[i]? = s.cells[i]?)
    ∧ (∃ h1 h2 : CustomHandler,
        (withAttrsOp (withAttrsOp s p a1).1 p a2).1.cells[(withAttrsOp s p a1).2]?
            = some h1
        ∧ (withAttrsOp (withAttrsOp s p a1).1 p a2).1.cells[
              (withAttrsOp (withAttrsOp s p a1).1 p a2).2]? = some h2
        ∧ h1.AdditionnalAttrs = a1 ∧ h2.AdditionnalAttrs = a2)
    ∧ (withCtxAttrsKeysOp s p keys).2 = p
    ∧ (withCtxAttrsKeysOp s p keys).1.cells[p]?
        = some { m with CtxAttrsKeys := m.CtxAttrsKeys ++ keys } := by
  have hlt : p < s.cells.length := listGet_lt_of_eq_some s.cells p m hp
  have h1eq : withAttrsOp s p a1
      = ({ cells := s.cells ++ [m.WithAttrs a1] }, s.cells.length) := by
    simp [withAttrsOp, hp]
  have hgeq : withGroupOp s p g
      = ({ cells := s.cells ++ [m.WithGroup g] }, s.cells.length) := by
    simp [withGroupOp, hp]
  have hp1 : (s.cells ++ [m.WithAttrs a1])[p]? = some m := by
    rw [listGet_append_lt _ _ _ hlt]
    exact hp
  have h2eq : withAttrsOp (withAttrsOp s p a1).1 p a2
      = ({ cells := (s.cells ++ [m.WithAttrs a1]) ++ [m.WithAttrs a2] },
         (s.cells ++ [m.WithAttrs a1]).length) := by
    rw [h1eq]
    simp [withAttrsOp, hp1]
  have hkeq : withCtxAttrsKeysOp s p keys
      = ({ cells := s.cells.set p { m with CtxAttrsKeys := m.CtxAttrsKeys ++ keys } },
         p) := by
    simp [withCtxAttrsKeysOp, hp]
  refine ⟨?_, ?_, ⟨m.WithAttrs a1, m.WithAttrs a2, ?_, ?_, rfl, rfl⟩, ?_, ?_⟩
  · intro i hi
    rw [h1eq]
    exact listGet_append_lt _ _ _ hi
  · intro i hi
    rw [hgeq]
    exact listGet_append_lt _ _ _ hi
  · rw [h2eq, h1eq]
    rw [listGet_append_lt _ _ _ (by simp), listGet_append_length]
  · rw [h2eq]
    exact listGet_append_length _ _
  · rw [hkeq]
  · rw [hkeq]
    exact listGet_set_self _ _ _ hlt

/-- Claim C3 witness: on the concrete one-cell store, a With
derivation leaves the parent cell untouched and WithCtxAttrsKeys
returns the parent address. -/
theorem claim3_derivation_immutability_witness :
    (withAttrsOp baseStore 0 [⟨"x", "1"⟩]).1.cells[0]? = baseStore.cells[0]?
    ∧ (withCtxAttrsKeysOp baseStore 0 ["u"]).2 = 0 := by
  have h := claim3_derivation_immutability_amended baseStore 0 [⟨"x", "1"⟩]
    [⟨"y", "2"⟩] "g" ["u"] handlerA (by decide)
  exact ⟨h.1 0 (by decide), h.2.2.2.1⟩

/-- Claim C5 counterexample: a handled Info event on the grouped
handler handlerG ("vals") with no attributes at all is dispatched with
a payload that carries no entry under "vals" — the claimed nested
object is absent, because the payload entry for the group is only
written inside the per-attribute loop. -/
theorem claim5_group_nesting_counterexample :
    (logCall handlerG [] 0 "msg" true true [] "t" envAllOk).jsonPost
      = some ("http://logs",
          [("time", JVal.str "t"), ("level", JVal.str "INFO"),
           ("msg", JVal.str "msg")])
    ∧ jlookup
        [("time", JVal.str "t"), ("level", JVal.str "INFO"),
         ("msg", JVal.str "msg")] "vals" = none := by
  refine ⟨?_, rfl⟩
  decide

/-- Claim C5 (amended): for a handled, dispatched event with at least
one merged attribute, a non-empty group name puts all attributes in a
single nested object keyed by the group name while the text output
still flattens each attribute onto its own line with the dotted
prefix; with an empty group name the attribute keys appear at top
level in the payload.  (A grouped event with zero attributes emits no
nested object at all.) -/
theorem claim5_group_nesting_asymmetry (m : CustomHandler) (ctx : GoContext)
    (r : SlogRecord) (env : RunEnv) (hjson : m.logJson = true)
    (hurl : m.Options.JsonLogURL ≠ "") (hm : env.marshalOk = true)
    (hr : env.requestOk = true) :
    (m.GroupName ≠ "" → specMergedAttrs m ctx r ≠ [] →
      ∃ payload, (m.Handle ctx r env).jsonPost = some (m.Options.JsonLogURL, payload)
        ∧ jlookup payload m.GroupName
            = some (JVal.obj (groupMapOf (specMergedAttrs m ctx r)))
        ∧ (m.mergeAttrs ctx r).1
            = (specMergedAttrs m ctx r).map (renderAttrLine (m.GroupName ++ ".")))
    ∧ (m.GroupName = "" →
      ∃ payload, (m.Handle ctx r env).jsonPost = some (m.Options.JsonLogURL, payload)
        ∧ ∀ a ∈ specMergedAttrs m ctx r,
            ∃ v, jlookup payload a.key = some (JVal.str v)) := by
  have hpost : (m.Handle ctx r env).jsonPost
      = some (m.Options.JsonLogURL, jsonDataOf m ctx r (sourceOf m env)) := by
    rw [Handle_jsonPost]
    simp [hurl, hjson, hm, hr]
  constructor
  · intro hg hne
    refine ⟨jsonDataOf m ctx r (sourceOf m env), hpost, ?_, ?_⟩
    · simp only [jsonDataOf, mergeAttrs_eq_spec]
      rw [if_pos hg, groupedFold_eq _ _ _ _ hne, jlookup_jinsert]
      simp [groupMapOf]
    · rw [mergeAttrs_eq_spec]
      simp [groupPref, hg]
  · intro hg
    refine ⟨jsonDataOf m ctx r (sourceOf m env), hpost, ?_⟩
    intro a ha
    simp only [jsonDataOf, mergeAttrs_eq_spec]
    rw [if_neg (by simp [hg])]
    obtain ⟨v, hv⟩ := lastValueOf_mem (specMergedAttrs m ctx r) a ha
    exact ⟨v, by rw [flatFold_jlookup, hv]⟩

/-- Claim C5 witness: handlerG2 (group "vals", bound attributes a=1
and b=2) posts a payload nesting both attributes under "vals" while
the text lines read vals.a : 1 and vals.b : 2. -/
theorem claim5_group_nesting_witness :
    ∃ payload, (handlerG2.Handle [] recInfo envAllOk).jsonPost
        = some ("http://logs", payload)
      ∧ jlookup payload "vals" = some (JVal.obj [("a", "1"), ("b", "2")])
      ∧ (handlerG2.mergeAttrs [] recInfo).1
          = ["\t- vals.a : 1", "\t- vals.b : 2"] := by
  have h := (claim5_group_nesting_asymmetry handlerG2 [] recInfo envAllOk rfl
    (by decide) rfl rfl).1 (by decide) (by decide)
  rcases h with ⟨payload, h1, h2, h3⟩
  refine ⟨payload, h1, ?_, ?_⟩
  · have h2a : jlookup payload "vals"
        = some (JVal.obj (groupMapOf (specMergedAttrs handlerG2 [] recInfo))) := h2
    rw [h2a]
    decide
  · have h3a : (handlerG2.mergeAttrs [] recInfo).1
        = (specMergedAttrs handlerG2 [] recInfo).map (renderAttrLine "vals.") := h3
    rw [h3a]
    decide

/-- Claim C8 counterexample: with bound attribute a=1 and call-site
attribute a=2 the text output keeps two separate lines, but the JSON
payload of the same handled event keeps a single entry for key "a",
holding only the last value. -/
theorem claim8_duplicates_counterexample :
    (handlerDup.mergeAttrs [] recDup).1 = ["\t- a : 1", "\t- a : 2"]
    ∧ (logCall handlerDup [] 0 "m" true true [⟨"a", "2"⟩] "t" envAllOk).jsonPost
        = some ("http://logs",
            [("time", JVal.str "t"), ("level", JVal.str "INFO"),
             ("msg", JVal.str "m"), ("a", JVal.str "2")])
    ∧ List.countP (fun e => e.1 == "a")
        [("time", JVal.str "t"), ("level", JVal.str "INFO"),
         ("msg", JVal.str "m"), ("a", JVal.str "2")] = 1 := by
  refine ⟨by decide, ?_, by decide⟩
  decide

/-- Claim C8 (amended): duplicate keys across the bound, call-site and
context sources are preserved as separate entries of the merged
sequence and hence as separate text lines; the JSON payload, being a
Go map, keeps a single entry per key whose value is the last
occurrence, in the flat form and in the nested group map alike. -/
theorem claim8_duplicates_amended (m : CustomHandler) (ctx : GoContext)
    (r : SlogRecord) (env : RunEnv) (hjson : m.logJson = true)
    (hurl : m.Options.JsonLogURL ≠ "") (hm : env.marshalOk = true)
    (hr : env.requestOk = true) :
    (m.mergeAttrs ctx r).1.length = (specMergedAttrs m ctx r).length
    ∧ (m.mergeAttrs ctx r).2 = specMergedAttrs m ctx r
    ∧ (m.GroupName = "" →
        ∀ k v, lastValueOf (specMergedAttrs m ctx r) k = some v →
          ∃ payload, (m.Handle ctx r env).jsonPost
              = some (m.Options.JsonLogURL, payload)
            ∧ jlookup payload k = some (JVal.str v))
    ∧ (m.GroupName ≠ "" →
        ∀ k v, lastValueOf (specMergedAttrs m ctx r) k = some v →
          ∃ payload gm, (m.Handle ctx r env).jsonPost
              = some (m.Options.JsonLogURL, payload)
            ∧ jlookup payload m.GroupName = some (JVal.obj gm)
            ∧ slookup gm k = some v) := by
  have hpost : (m.Handle ctx r env).jsonPost
      = some (m.Options.JsonLogURL, jsonDataOf m ctx r (sourceOf m env)) := by
    rw [Handle_jsonPost]
    simp [hurl, hjson, hm, hr]
  refine ⟨?_, ?_, ?_, ?_⟩
  · rw [mergeAttrs_eq_spec]
    simp
  · rw [mergeAttrs_eq_spec]
  · intro hg k v hv
    refine ⟨jsonDataOf m ctx r (sourceOf m env), hpost, ?_⟩
    simp only [jsonDataOf, mergeAttrs_eq_spec]
    rw [if_neg (by simp [hg]), flatFold_jlookup, hv]
  · intro hg k v hv
    have hne : specMergedAttrs m ctx r ≠ [] := by
      intro h0
      rw [h0] at hv
      cases hv
    refine ⟨jsonDataOf m ctx r (sourceOf m env),
      groupMapOf (specMergedAttrs m ctx r), hpost, ?_, ?_⟩
    · simp only [jsonDataOf, mergeAttrs_eq_spec]
      rw [if_pos hg, groupedFold_eq _ _ _ _ hne, jlookup_jinsert]
      simp [groupMapOf]
    · unfold groupMapOf
      rw [groupMapFold_slookup, hv]

/-- Claim C8 witness: the duplicated key "a" of the counterexample
setup resolves in the payload to the last value 2. -/
theorem claim8_duplicates_witness :
    ∃ payload, (handlerDup.Handle [] recDup envAllOk).jsonPost
        = some ("http://logs", payload)
      ∧ jlookup payload "a" = some (JVal.str "2") := by
  have h := (claim8_duplicates_amended handlerDup [] recDup envAllOk rfl
    (by decide) rfl rfl).2.2.1 rfl "a" "2" (by decide)
  exact h

/-- Claim C6: for a handled event (with the standard library marshal
and request construction succeeding), text is written exactly when the
per-call text flag is set, and a POST is issued exactly when the
per-call JSON flag is set and the remote URL is non-empty; an empty
URL makes JSON dispatch a no-op regardless of the flags; the JsonOnly
variant never writes text and the TextOnly variant with no URL never
posts. -/
theorem claim6_routing_flags (m : CustomHandler) (ctx : GoContext) (level : Int)
    (msg tm : String) (lT lJ : Bool) (attrs : List Attr) (env : RunEnv)
    (hen : m.Options.MinimumLevel ≤ level)
    (hmarshal : env.marshalOk = true) (hrequest : env.requestOk = true) :
    ((logCall m ctx level msg lT lJ attrs tm env).textOutput.isSome = lT)
    ∧ ((logCall m ctx level msg lT lJ attrs tm env).jsonPost.isSome
        = (lJ && decide (m.Options.JsonLogURL ≠ "")))
    ∧ (m.Options.JsonLogURL = "" →
        (logCall m ctx level msg lT lJ attrs tm env).jsonPost = none)
    ∧ ((CustomLogger.InfoJsonOnly m ctx msg attrs tm env).textOutput = none)
    ∧ (m.Options.JsonLogURL = "" →
        (CustomLogger.InfoTextOnly m ctx msg attrs tm env).jsonPost = none) := by
  have hEn : ({ m with logText := lT, logJson := lJ } : CustomHandler).Enabled ctx level
      = true := by
    simp [CustomHandler.Enabled, hen]
  have hcall : logCall m ctx level msg lT lJ attrs tm env
      = CustomHandler.Handle { m with logText := lT, logJson := lJ } ctx
          { Time := tm, Level := level, Message := msg, Attrs := attrs } env := by
    simp [logCall, hEn]
  refine ⟨?_, ?_, ?_, ?_, ?_⟩
  · rw [hcall, Handle_textOutput]
    cases lT <;> simp
  · rw [hcall, Handle_jsonPost]
    by_cases hu : m.Options.JsonLogURL = ""
    · cases lJ <;> simp [hu, hmarshal, hrequest]
    · cases lJ <;> simp [hu, hmarshal, hrequest]
  · intro hu
    rw [hcall, Handle_jsonPost]
    simp [hu]
  · simp only [CustomLogger.InfoJsonOnly, logCall]
    split
    · rw [Handle_textOutput]
      simp
    · rfl
  · intro hu
    simp only [CustomLogger.InfoTextOnly, logCall]
    split
    · rw [Handle_jsonPost]
      simp [hu]
    · rfl

/-- Claim C6 witness: on handlerA a JSON-only Info call writes no text
and does issue a POST. -/
theorem claim6_routing_flags_witness :
    (CustomLogger.InfoJsonOnly handlerA [] "m" [] "t" envAllOk).textOutput = none
    ∧ (logCall handlerA [] 0 "m" false true [] "t" envAllOk).jsonPost.isSome = true := by
  have h := claim6_routing_flags handlerA [] 0 "m" "t" false true [] envAllOk
    (by decide) rfl rfl
  refine ⟨h.2.2.2.1, ?_⟩
  rw [h.2.1]
  decide

/-- Claim C7: Handle returns an error exactly when dispatch is active
and marshalling or request construction fails; such an error aborts
the POST for that event while leaving the text output untouched; a
transport failure of the POST itself is only printed on the local
output path and never makes Handle return an error. -/
theorem claim7_error_propagation (m : CustomHandler) (ctx : GoContext)
    (r : SlogRecord) (env : RunEnv) :
    ((m.Handle ctx r env).err.isSome
        ↔ ((m.Options.JsonLogURL ≠ "" ∧ m.logJson = true)
            ∧ (env.marshalOk = false ∨ env.requestOk = false)))
    ∧ ((m.Handle ctx r env).err.isSome → (m.Handle ctx r env).jsonPost = none)
    ∧ ((m.Handle ctx r env).textOutput
        = if m.logText = true then
            some (renderedText m r (sourceOf m env) (textAttrsValuesOf m ctx r))
          else none)
    ∧ (∀ e, env.transportError = some e →
        env.marshalOk = true → env.requestOk = true →
          (m.Handle ctx r env).err = none
          ∧ (m.Options.JsonLogURL ≠ "" → m.logJson = true →
              (m.Handle ctx r env).localPrints
                = ["error while sending to log service : " ++ e ++ "\n"])) := by
  refine ⟨?_, ?_, Handle_textOutput m ctx r env, ?_⟩
  · rw [Handle_err]
    by_cases hd : m.Options.JsonLogURL ≠ "" ∧ m.logJson = true
    · cases hmo : env.marshalOk <;> cases hro : env.requestOk <;> simp [hd]
    · simp [hd]
  · rw [Handle_err, Handle_jsonPost]
    by_cases hd : m.Options.JsonLogURL ≠ "" ∧ m.logJson = true
    · cases hmo : env.marshalOk <;> cases hro : env.requestOk <;>
        simp [hd, hmo, hro]
    · simp [hd]
  · intro e he hmo hro
    constructor
    · rw [Handle_err]
      by_cases hd : m.Options.JsonLogURL ≠ "" ∧ m.logJson = true <;>
        simp [hd, hmo, hro]
    · intro hu hj
      rw [Handle_localPrints]
      simp [hu, hj, hmo, hro, he]

/-- Claim C7 witness: a connection-refused transport failure on
handlerA is printed locally and Handle still returns no error. -/
theorem claim7_error_propagation_witness :
    (handlerA.Handle [] recInfo envTransportFail).err = none
    ∧ (handlerA.Handle [] recInfo envTransportFail).localPrints
        = ["error while sending to log service : connection refused\n"] := by
  have h := (claim7_error_propagation handlerA [] recInfo envTransportFail).2.2.2
    "connection refused" rfl rfl rfl
  exact ⟨h.1, h.2 (by decide) rfl⟩

end Customsloglogger
